import Mathlib

/-!
# Transaction repeater (`main.go`)

A shallow embedding of `func main` of `main.go`.  The program is a straight
line of library calls followed by one counted loop, so the embedding is a
function from the answers of the outside world (settings file, environment,
RPC endpoint, key and signing library) to the list of observable events the
program produces and its exit status.

Conventions.

* Go `int` is taken at its 64-bit width; `uint64` and `int` arithmetic wraps
  (`wrapU64`, `wrapI64`).
* A library call that returns `(value, error)` is an `Except String` valued
  field of `World`; a call that returns only `error` is `Option String`
  (`none` is `nil`).
* `log.Fatalf` is the event `Event.fatal` followed by exit status `1`;
  returning from `main` is exit status `0`.
* The loop is run with fuel; `Run.exit = none` means the fuel ran out.
-/

namespace Repeater

/-! ## Machine arithmetic -/

/-- Reduction of a natural number to `uint64`. -/
def wrapU64 (n : Nat) : Nat := n % 2 ^ 64

/-- Reduction of an integer to two's complement `int64`. -/
def wrapI64 (x : Int) : Int := (x + 2 ^ 63) % 2 ^ 64 - 2 ^ 63

/-- The values of `int64`. -/
def inInt64 (x : Int) : Prop := -(2 ^ 63) ≤ x ∧ x < 2 ^ 63

instance (x : Int) : Decidable (inInt64 x) := by
  unfold inInt64; infer_instance

/-! ## Constants (`main.go` lines 22-25) -/

/-- The constant `BALANCE_THRESHOLD = 0.001` (an exact untyped constant). -/
def BALANCE_THRESHOLD : ℚ := 1 / 1000

/-- The constant `GAS_LIMIT = 56000`. -/
def GAS_LIMIT : Nat := 56000

/-- The constant expression `int64(BALANCE_THRESHOLD*1e18)` of line 69. -/
def balanceThresholdWei : Int := ⌊BALANCE_THRESHOLD * 1000000000000000000⌋

/-! ## Data -/

/-- Addresses, as abstract numbers. -/
abbrev Address := Nat

/-- The fields given to `types.NewTransaction`. -/
structure Tx where
  nonce : Nat
  recipient : Address
  value : Int
  gas : Nat
  gasPrice : Int
  data : List Nat
  deriving DecidableEq, Repr

/-- The transaction returned by `types.SignTx`, with the hash it reports. -/
structure SignedTx where
  raw : Nat
  hash : Nat
  deriving DecidableEq, Repr

/-- The three command line flags, after `flag.Parse`. -/
structure Flags where
  gasPriceGwei : Int
  attempts : Int
  interval : Int
  deriving DecidableEq, Repr

/-- The lines the program writes, by format string. -/
inductive Msg where
  /-- Line "Error loading .env file" -/
  | errLoadingEnv
  /-- Line "Failed to connect to Ethereum network: %v" -/
  | failedConnect (err : String)
  /-- Line "Connected to the Monad network." -/
  | connected
  /-- Line "Invalid private key: %v" -/
  | invalidKey (err : String)
  /-- Line "Failed to parse private key: %v" -/
  | failedParseKey (err : String)
  /-- Line "Using account: %s" -/
  | usingAccount (addr : Address)
  /-- Line "Failed to get account balance: %v" -/
  | failedBalance (err : String)
  /-- Line "Account balance: %f ETH", carrying the balance in wei. -/
  | accountBalance (wei : Int)
  /-- Line "Account balance is too low to play. Please add funds." -/
  | balanceTooLow
  /-- Line "Failed to get nonce: %v" -/
  | failedNonce (err : String)
  /-- Line "Nonce: %d" -/
  | nonce (n : Nat)
  /-- Line "Failed to sign transaction: %v" -/
  | failedSign (err : String)
  /-- Line "Failed to send transaction: %v" -/
  | failedSend (err : String)
  /-- Line "Sent transaction with nonce %d. Tx hash: %s" -/
  | sent (nonce : Nat) (hash : Nat)
  /-- Line "All attempts completed. Exiting..." -/
  | allCompleted
  deriving DecidableEq, Repr

/-- The observable steps of a run, in program order. -/
inductive Event where
  /-- Call of `godotenv.Load(file)` -/
  | loadEnv (file : String)
  /-- Call of `ethclient.Dial(url)` -/
  | dial (url : String)
  /-- Call of `hex.DecodeString(s)` -/
  | hexDecode (s : String)
  /-- Call of `crypto.ToECDSA(bytes)` -/
  | toECDSA (bytes : List Nat)
  /-- Call of `client.BalanceAt(ctx, addr, nil)` -/
  | balanceAt (addr : Address)
  /-- Call of `client.PendingNonceAt(ctx, addr)` -/
  | pendingNonceAt (addr : Address)
  /-- Call of `types.NewTransaction(...)` -/
  | newTx (tx : Tx)
  /-- Call of `types.SignTx(tx, types.NewEIP155Signer(chainId), key)` -/
  | signTx (tx : Tx) (chainId : Int)
  /-- Call of `client.SendTransaction(ctx, signedTx)` -/
  | sendTx (stx : SignedTx)
  /-- Call of `time.Sleep(d)`, with `d` in nanoseconds -/
  | sleep (ns : Int)
  /-- Call of `fmt.Println` or `fmt.Printf` -/
  | print (m : Msg)
  /-- Call of `log.Println` or `log.Printf` -/
  | log (m : Msg)
  /-- Call of `log.Fatalf` -/
  | fatal (m : Msg)
  deriving DecidableEq, Repr

/-- The answers of everything outside `main.go`. -/
structure World where
  /-- Call of `godotenv.Load`: `none` when the file is loaded. -/
  load : String → Option String
  /-- The process environment once the settings file is loaded. -/
  env : String → Option String
  /-- Call of `ethclient.Dial`, giving a client handle. -/
  dial : String → Except String Nat
  /-- Call of `hex.DecodeString` -/
  hexDecode : String → Except String (List Nat)
  /-- Call of `crypto.ToECDSA`, giving a key handle. -/
  toECDSA : List Nat → Except String Nat
  /-- Call of `privateKey.Public()` as an `*ecdsa.PublicKey` -/
  publicOf : Nat → Nat
  /-- Call of `crypto.PubkeyToAddress` -/
  pubkeyToAddress : Nat → Address
  /-- Call of `client.BalanceAt` at the latest block. -/
  balanceAt : Nat → Address → Except String Int
  /-- Call of `client.PendingNonceAt`, a `uint64`. -/
  pendingNonceAt : Nat → Address → Except String Nat
  /-- Call of `common.HexToAddress`, which has no error result. -/
  hexToAddress : String → Address
  /-- Call of `types.SignTx` with an EIP-155 signer of the given chain id. -/
  signTx : Tx → Int → Nat → Except String SignedTx
  /-- Call of `client.SendTransaction`; the first argument counts the earlier sends. -/
  send : Nat → Nat → SignedTx → Option String

/-- The outcome of a run: its events, and its exit status unless fuel ran out. -/
structure Run where
  trace : List Event
  exit : Option Nat
  deriving DecidableEq, Repr

/-! ## The program -/

/-- Call of `os.Getenv`: the value, or the empty string when the variable is absent. -/
def Getenv (w : World) (key : String) : String := (w.env key).getD ""

/-- Call of `types.NewTransaction(nonce, to, amount, gasLimit, gasPrice, data)`. -/
def NewTransaction (nonce : Nat) (recipient : Address) (amount : Int) (gasLimit : Nat)
    (gasPrice : Int) (data : List Nat) : Tx :=
  ⟨nonce, recipient, amount, gasLimit, gasPrice, data⟩

/-- The line written after a send (lines 92-96): the error when the send
failed, the nonce and hash otherwise. -/
def resultLine (err : Option String) (nonce : Nat) (signedTx : SignedTx) : Event :=
  match err with
  | some e => Event.log (Msg.failedSend e)
  | none => Event.print (Msg.sent nonce signedTx.hash)

/-- The loop of lines 84-102, with the completion message that follows it.
`sent` counts the sends made so far; `nonce` and `attempts` are the two
variables the loop updates.  The decrement `*attempts--` runs only with
`attempts > 0`, where it cannot wrap. -/
def loop (w : World) (client key : Nat) (contractAddr : Address) (gasPrice interval : Int) :
    Nat → Nat → Nat → Int → Run
  | 0, _, _, attempts =>
    if attempts > 0 then ⟨[], none⟩ else ⟨[Event.log Msg.allCompleted], some 0⟩
  | fuel + 1, sent, nonce, attempts =>
    if attempts > 0 then
      let tx := NewTransaction nonce contractAddr 0 GAS_LIMIT gasPrice []
      match w.signTx tx 1 key with
      | Except.error e =>
        ⟨[Event.newTx tx, Event.signTx tx 1, Event.fatal (Msg.failedSign e)], some 1⟩
      | Except.ok signedTx =>
        let line := resultLine (w.send sent client signedTx) nonce signedTx
        let rest := loop w client key contractAddr gasPrice interval
          fuel (sent + 1) (wrapU64 (nonce + 1)) (attempts - 1)
        ⟨[Event.newTx tx, Event.signTx tx 1, Event.sendTx signedTx, line,
            Event.sleep (wrapI64 (interval * 1000000000))] ++ rest.trace, rest.exit⟩
    else ⟨[Event.log Msg.allCompleted], some 0⟩

/-- The function `main` (lines 27-103), given the parsed flags. -/
def main (w : World) (f : Flags) (fuel : Nat) : Run :=
  match w.load "settings.env" with
  | some _ => ⟨[Event.loadEnv "settings.env", Event.fatal Msg.errLoadingEnv], some 1⟩
  | none =>
  let rpcURL := Getenv w "RPC_URL"
  let privateKeyHex := Getenv w "PRIVATE_KEY"
  let contractAddress := Getenv w "FRONTRUNNER_CONTRACT_ADDRESS"
  let t1 := [Event.loadEnv "settings.env", Event.dial rpcURL]
  match w.dial rpcURL with
  | Except.error e => ⟨t1 ++ [Event.fatal (Msg.failedConnect e)], some 1⟩
  | Except.ok client =>
  let t2 := t1 ++ [Event.print Msg.connected, Event.hexDecode privateKeyHex]
  match w.hexDecode privateKeyHex with
  | Except.error e => ⟨t2 ++ [Event.fatal (Msg.invalidKey e)], some 1⟩
  | Except.ok privateKeyBytes =>
  let t3 := t2 ++ [Event.toECDSA privateKeyBytes]
  match w.toECDSA privateKeyBytes with
  | Except.error e => ⟨t3 ++ [Event.fatal (Msg.failedParseKey e)], some 1⟩
  | Except.ok privateKey =>
  let fromAddress := w.pubkeyToAddress (w.publicOf privateKey)
  let t4 := t3 ++ [Event.print (Msg.usingAccount fromAddress), Event.balanceAt fromAddress]
  match w.balanceAt client fromAddress with
  | Except.error e => ⟨t4 ++ [Event.fatal (Msg.failedBalance e)], some 1⟩
  | Except.ok balance =>
  let t5 := t4 ++ [Event.print (Msg.accountBalance balance)]
  if balance < balanceThresholdWei then
    ⟨t5 ++ [Event.log Msg.balanceTooLow], some 0⟩
  else
  let contractAddr := w.hexToAddress contractAddress
  let gasPrice := wrapI64 (f.gasPriceGwei * 1000000000)
  let t6 := t5 ++ [Event.pendingNonceAt fromAddress]
  match w.pendingNonceAt client fromAddress with
  | Except.error e => ⟨t6 ++ [Event.fatal (Msg.failedNonce e)], some 1⟩
  | Except.ok nonce =>
  let rest := loop w client privateKey contractAddr gasPrice f.interval fuel 0 nonce f.attempts
  ⟨t6 ++ [Event.print (Msg.nonce nonce)] ++ rest.trace, rest.exit⟩

/-! ## Observations on a trace -/

/-- The transaction an event builds, if it is a `NewTransaction` call. -/
def Event.asBuilt : Event → Option Tx
  | Event.newTx tx => some tx
  | _ => none

/-- The transaction an event hands to the signer, if it is a `SignTx` call. -/
def Event.asSigned : Event → Option Tx
  | Event.signTx tx _ => some tx
  | _ => none

/-- The signed transaction an event submits, if it is a `SendTransaction` call. -/
def Event.asSent : Event → Option SignedTx
  | Event.sendTx stx => some stx
  | _ => none

/-- Whether the event is a balance query. -/
def Event.isBalanceQuery : Event → Bool
  | Event.balanceAt _ => true
  | _ => false

/-- Whether the event is a pending-nonce query. -/
def Event.isNonceQuery : Event → Bool
  | Event.pendingNonceAt _ => true
  | _ => false

/-- The transactions built during a run, in order. -/
def builtTxs (t : List Event) : List Tx := t.filterMap Event.asBuilt

/-- The transactions handed to the signer during a run, in order. -/
def signedTxs (t : List Event) : List Tx := t.filterMap Event.asSigned

/-- The signed transactions submitted to the client during a run, in order. -/
def sentTxs (t : List Event) : List SignedTx := t.filterMap Event.asSent

/-- The number of balance queries of a run. -/
def balanceQueries (t : List Event) : Nat := t.countP Event.isBalanceQuery

/-- The number of pending-nonce queries of a run. -/
def nonceQueries (t : List Event) : Nat := t.countP Event.isNonceQuery

/-- No balance or nonce query occurs in the trace. -/
def noQueries (t : List Event) : Bool :=
  t.all fun e => !(e.isBalanceQuery || e.isNonceQuery)

/-- Every balance or nonce query of the trace comes before every built
transaction: once a transaction has been built, no query follows. -/
def queriesPrecedeBuilds : List Event → Bool
  | [] => true
  | e :: t => if (Event.asBuilt e).isSome then noQueries t else queriesPrecedeBuilds t

/-- Nothing was built, signed or sent. -/
def noTransactions (t : List Event) : Prop :=
  builtTxs t = [] ∧ signedTxs t = [] ∧ sentTxs t = []

instance (t : List Event) : Decidable (noTransactions t) := by
  unfold noTransactions; infer_instance

/-! ## Sample worlds -/

/-- A world in which every call succeeds: balance `10^16` wei, pending nonce
`5`, and every send accepted. -/
def sampleWorld : World where
  load := fun _ => none
  env := fun k =>
    if k = "RPC_URL" then some "http://localhost:8545"
    else if k = "PRIVATE_KEY" then some "01"
    else if k = "FRONTRUNNER_CONTRACT_ADDRESS" then some "0xabc"
    else none
  dial := fun _ => Except.ok 1
  hexDecode := fun _ => Except.ok [1]
  toECDSA := fun _ => Except.ok 1
  publicOf := fun k => k
  pubkeyToAddress := fun _ => 100
  balanceAt := fun _ _ => Except.ok 10000000000000000
  pendingNonceAt := fun _ _ => Except.ok 5
  hexToAddress := fun s => if s = "0xabc" then 2748 else 0
  signTx := fun tx _ _ => Except.ok ⟨tx.nonce, tx.nonce + 1000⟩
  send := fun _ _ _ => none

/-- The sample world with the pending nonce at the largest `uint64`. -/
def maxNonceWorld : World :=
  { sampleWorld with pendingNonceAt := fun _ _ => Except.ok 18446744073709551615 }

/-- The sample world with a balance of `0.0005`, below the threshold. -/
def lowBalanceWorld : World :=
  { sampleWorld with balanceAt := fun _ _ => Except.ok 500000000000000 }

/-- The sample world with a balance equal to the threshold. -/
def thresholdWorld : World :=
  { sampleWorld with balanceAt := fun _ _ => Except.ok 1000000000000000 }

/-- The sample world with a signer that always fails. -/
def signFailWorld : World :=
  { sampleWorld with signTx := fun _ _ _ => Except.error "signing failed" }

/-- The sample world with a signer that signs the transaction with nonce 5
and fails on every other one, so that the second iteration fails. -/
def lateSignFailWorld : World :=
  { sampleWorld with
    signTx := fun tx _ _ =>
      if tx.nonce = 5 then Except.ok ⟨tx.nonce, tx.nonce + 1000⟩
      else Except.error "signing failed" }

/-- The sample world with a failing balance query. -/
def balanceErrWorld : World :=
  { sampleWorld with balanceAt := fun _ _ => Except.error "balance unavailable" }

/-- The sample world with a failing pending-nonce query. -/
def nonceErrWorld : World :=
  { sampleWorld with pendingNonceAt := fun _ _ => Except.error "nonce unavailable" }

/-- The sample world in which the first send is rejected and later ones are
accepted. -/
def sendFailWorld : World :=
  { sampleWorld with send := fun i _ _ => if i = 0 then some "rejected" else none }

/-- The sample world with a private key that is not hex. -/
def badHexWorld : World :=
  { sampleWorld with
    env := fun k =>
      if k = "RPC_URL" then some "http://localhost:8545"
      else if k = "PRIVATE_KEY" then some "zz"
      else if k = "FRONTRUNNER_CONTRACT_ADDRESS" then some "0xabc"
      else none
    hexDecode := fun s => if s = "zz" then Except.error "invalid byte" else Except.ok [1] }

/-! ## Hypotheses on a world -/

/-- Signing with chain id 1 succeeds on every transaction. -/
def SignsAll (w : World) (key : Nat) : Prop :=
  ∀ tx, ∃ stx, w.signTx tx 1 key = Except.ok stx

/-- The address the run sends from, for a given key. -/
def fromAddressOf (w : World) (key : Nat) : Address := w.pubkeyToAddress (w.publicOf key)

/-- Setup succeeds up to the derivation of the key: the settings file loads,
the dial gives `client`, and the private key decodes to `bytes` and parses to
`key`. -/
def KeyOk (w : World) (client : Nat) (bytes : List Nat) (key : Nat) : Prop :=
  w.load "settings.env" = none ∧
  w.dial (Getenv w "RPC_URL") = Except.ok client ∧
  w.hexDecode (Getenv w "PRIVATE_KEY") = Except.ok bytes ∧
  w.toECDSA bytes = Except.ok key

/-- Setup succeeds up to and including the balance query, which answers
`balance`. -/
def SetupOk (w : World) (client : Nat) (bytes : List Nat) (key : Nat) (balance : Int) : Prop :=
  KeyOk w client bytes key ∧
  w.balanceAt client (fromAddressOf w key) = Except.ok balance

/-- The run reaches the loop: setup succeeds, the balance passes the gate and
the pending-nonce query answers `nonce`. -/
def ReachesLoop (w : World) (client : Nat) (bytes : List Nat) (key : Nat) (balance : Int)
    (nonce : Nat) : Prop :=
  SetupOk w client bytes key balance ∧ ¬ balance < balanceThresholdWei ∧
  w.pendingNonceAt client (fromAddressOf w key) = Except.ok nonce

/-- The events of a run before the loop, when the loop is reached. -/
def setupTrace (w : World) (bytes : List Nat) (key : Nat) (balance : Int) (nonce : Nat) :
    List Event :=
  [Event.loadEnv "settings.env", Event.dial (Getenv w "RPC_URL"), Event.print Msg.connected,
    Event.hexDecode (Getenv w "PRIVATE_KEY"), Event.toECDSA bytes,
    Event.print (Msg.usingAccount (fromAddressOf w key)), Event.balanceAt (fromAddressOf w key),
    Event.print (Msg.accountBalance balance), Event.pendingNonceAt (fromAddressOf w key),
    Event.print (Msg.nonce nonce)]

/-- The events of one full iteration of the loop. -/
def iteration (tx : Tx) (stx : SignedTx) (err : Option String) (ns : Int) : List Event :=
  [Event.newTx tx, Event.signTx tx 1, Event.sendTx stx, resultLine err tx.nonce stx,
    Event.sleep ns]

/-! ## Lemmas -/

theorem balanceThresholdWei_eq : balanceThresholdWei = 1000000000000000 := by
  unfold balanceThresholdWei BALANCE_THRESHOLD
  norm_num

theorem wrapU64_lt (n : Nat) : wrapU64 n < 2 ^ 64 :=
  Nat.mod_lt _ (by norm_num)

theorem wrapU64_of_lt {n : Nat} (h : n < 2 ^ 64) : wrapU64 n = n :=
  Nat.mod_eq_of_lt h

theorem wrapU64_add_wrapU64 (n k : Nat) : wrapU64 (wrapU64 (n + 1) + k) = wrapU64 (n + (k + 1)) := by
  unfold wrapU64
  rw [Nat.mod_add_mod]
  congr 1
  omega

theorem wrapI64_of_inInt64 {x : Int} (h : inInt64 x) : wrapI64 x = x := by
  unfold inInt64 at h
  unfold wrapI64
  omega

theorem noQueries_append (s t : List Event) :
    noQueries (s ++ t) = (noQueries s && noQueries t) := by
  simp [noQueries, List.all_append]

theorem queriesPrecedeBuilds_of_noQueries :
    ∀ t : List Event, noQueries t = true → queriesPrecedeBuilds t = true
  | [], _ => rfl
  | e :: t, h => by
    have ht : noQueries t = true := by
      simp only [noQueries, List.all_cons, Bool.and_eq_true] at h ⊢
      exact h.2
    unfold queriesPrecedeBuilds
    split
    · exact ht
    · exact queriesPrecedeBuilds_of_noQueries t ht

theorem balanceQueries_of_noQueries (t : List Event) (h : noQueries t = true) :
    balanceQueries t = 0 := by
  unfold balanceQueries
  rw [List.countP_eq_zero]
  intro e he
  simp only [noQueries, List.all_eq_true] at h
  have := h e he
  simp only [Bool.not_eq_true', Bool.or_eq_false_iff] at this
  simp [this.1]

theorem nonceQueries_of_noQueries (t : List Event) (h : noQueries t = true) :
    nonceQueries t = 0 := by
  unfold nonceQueries
  rw [List.countP_eq_zero]
  intro e he
  simp only [noQueries, List.all_eq_true] at h
  have := h e he
  simp only [Bool.not_eq_true', Bool.or_eq_false_iff] at this
  simp [this.2]

theorem builtTxs_append (s t : List Event) : builtTxs (s ++ t) = builtTxs s ++ builtTxs t := by
  simp [builtTxs]

theorem signedTxs_append (s t : List Event) :
    signedTxs (s ++ t) = signedTxs s ++ signedTxs t := by
  simp [signedTxs]

theorem sentTxs_append (s t : List Event) : sentTxs (s ++ t) = sentTxs s ++ sentTxs t := by
  simp [sentTxs]

theorem builtTxs_iteration (tx : Tx) (stx : SignedTx) (err : Option String) (ns : Int) :
    builtTxs (iteration tx stx err ns) = [tx] := by
  cases err <;> rfl

theorem signedTxs_iteration (tx : Tx) (stx : SignedTx) (err : Option String) (ns : Int) :
    signedTxs (iteration tx stx err ns) = [tx] := by
  cases err <;> rfl

theorem sentTxs_iteration (tx : Tx) (stx : SignedTx) (err : Option String) (ns : Int) :
    sentTxs (iteration tx stx err ns) = [stx] := by
  cases err <;> rfl

theorem noQueries_iteration (tx : Tx) (stx : SignedTx) (err : Option String) (ns : Int) :
    noQueries (iteration tx stx err ns) = true := by
  cases err <;> rfl

/-- One step of the loop with a positive count: a failed signing is fatal,
otherwise the iteration is followed by the rest of the loop. -/
theorem loop_succ (w : World) (client key : Nat) (addr : Address) (gp iv : Int)
    (fuel sent nonce : Nat) (attempts : Int) (hpos : attempts > 0) :
    loop w client key addr gp iv (fuel + 1) sent nonce attempts =
      match w.signTx (NewTransaction nonce addr 0 GAS_LIMIT gp []) 1 key with
      | Except.error e =>
        ⟨[Event.newTx (NewTransaction nonce addr 0 GAS_LIMIT gp []),
          Event.signTx (NewTransaction nonce addr 0 GAS_LIMIT gp []) 1,
          Event.fatal (Msg.failedSign e)], some 1⟩
      | Except.ok stx =>
        ⟨iteration (NewTransaction nonce addr 0 GAS_LIMIT gp []) stx (w.send sent client stx)
            (wrapI64 (iv * 1000000000)) ++
          (loop w client key addr gp iv fuel (sent + 1) (wrapU64 (nonce + 1))
            (attempts - 1)).trace,
         (loop w client key addr gp iv fuel (sent + 1) (wrapU64 (nonce + 1))
            (attempts - 1)).exit⟩ := by
  simp only [loop, if_pos hpos]
  cases w.signTx (NewTransaction nonce addr 0 GAS_LIMIT gp []) 1 key <;> rfl

/-- The loop with a count that is not positive only writes the completion
message. -/
theorem loop_done (w : World) (client key : Nat) (addr : Address) (gp iv : Int)
    (fuel sent nonce : Nat) (attempts : Int) (hpos : ¬ attempts > 0) :
    loop w client key addr gp iv fuel sent nonce attempts =
      ⟨[Event.log Msg.allCompleted], some 0⟩ := by
  cases fuel <;> simp [loop, hpos]

/-- The loop without fuel and with a positive count stops at once. -/
theorem loop_zero (w : World) (client key : Nat) (addr : Address) (gp iv : Int)
    (sent nonce : Nat) (attempts : Int) (hpos : attempts > 0) :
    loop w client key addr gp iv 0 sent nonce attempts = ⟨[], none⟩ := by
  simp [loop, hpos]


/-- The loop issues no balance query and no nonce query, whatever the fuel,
the world and the state it starts from. -/
theorem loop_noQueries (w : World) (client key : Nat) (addr : Address) (gp iv : Int) :
    ∀ fuel sent nonce attempts,
      noQueries (loop w client key addr gp iv fuel sent nonce attempts).trace = true := by
  intro fuel
  induction fuel with
  | zero =>
    intro sent nonce attempts
    by_cases hpos : attempts > 0
    · rw [loop_zero _ _ _ _ _ _ _ _ _ hpos]; rfl
    · rw [loop_done _ _ _ _ _ _ _ _ _ _ hpos]; rfl
  | succ n ih =>
    intro sent nonce attempts
    by_cases hpos : attempts > 0
    · rw [loop_succ _ _ _ _ _ _ _ _ _ _ hpos]
      split
      · rfl
      · simp only [noQueries_append, noQueries_iteration, ih, Bool.and_self]
    · rw [loop_done _ _ _ _ _ _ _ _ _ _ hpos]; rfl

/-- The loop never writes the low-balance warning. -/
theorem loop_no_warning (w : World) (client key : Nat) (addr : Address) (gp iv : Int) :
    ∀ fuel sent nonce attempts,
      Event.log Msg.balanceTooLow ∉
        (loop w client key addr gp iv fuel sent nonce attempts).trace := by
  intro fuel
  induction fuel with
  | zero =>
    intro sent nonce attempts
    by_cases hpos : attempts > 0
    · rw [loop_zero _ _ _ _ _ _ _ _ _ hpos]; simp
    · rw [loop_done _ _ _ _ _ _ _ _ _ _ hpos]; simp
  | succ n ih =>
    intro sent nonce attempts
    by_cases hpos : attempts > 0
    · rw [loop_succ _ _ _ _ _ _ _ _ _ _ hpos]
      split
      · simp
      · rename_i stx _
        have h := ih (sent + 1) (wrapU64 (nonce + 1)) (attempts - 1)
        cases hsend : w.send sent client stx <;> simp [iteration, resultLine, h]
    · rw [loop_done _ _ _ _ _ _ _ _ _ _ hpos]; simp

/-- Every transaction the loop builds carries the loop's fixed fields. -/
theorem loop_built_fields (w : World) (client key : Nat) (addr : Address) (gp iv : Int) :
    ∀ fuel sent nonce attempts,
      ∀ tx ∈ builtTxs (loop w client key addr gp iv fuel sent nonce attempts).trace,
        tx.recipient = addr ∧ tx.value = 0 ∧ tx.data = [] ∧ tx.gas = GAS_LIMIT ∧
          tx.gasPrice = gp := by
  intro fuel
  induction fuel with
  | zero =>
    intro sent nonce attempts tx htx
    by_cases hpos : attempts > 0
    · rw [loop_zero _ _ _ _ _ _ _ _ _ hpos] at htx; simp [builtTxs] at htx
    · rw [loop_done _ _ _ _ _ _ _ _ _ _ hpos] at htx; simp [builtTxs, Event.asBuilt] at htx
  | succ n ih =>
    intro sent nonce attempts tx htx
    by_cases hpos : attempts > 0
    · rw [loop_succ _ _ _ _ _ _ _ _ _ _ hpos] at htx
      split at htx
      · simp [builtTxs, Event.asBuilt] at htx
        subst htx
        simp [NewTransaction]
      · simp only [builtTxs_append, builtTxs_iteration, List.singleton_append,
          List.mem_cons] at htx
        rcases htx with h0 | h1
        · subst h0; simp [NewTransaction]
        · exact ih _ _ _ tx h1
    · rw [loop_done _ _ _ _ _ _ _ _ _ _ hpos] at htx; simp [builtTxs, Event.asBuilt] at htx

/-- With enough fuel and a signer that never fails, the loop ends with the
completion message and exit status 0. -/
theorem loop_exit (w : World) (client key : Nat) (addr : Address) (gp iv : Int)
    (hs : SignsAll w key) :
    ∀ fuel sent nonce attempts, Int.toNat attempts ≤ fuel →
      (loop w client key addr gp iv fuel sent nonce attempts).exit = some 0 ∧
      (loop w client key addr gp iv fuel sent nonce attempts).trace.getLast? =
        some (Event.log Msg.allCompleted) := by
  intro fuel
  induction fuel with
  | zero =>
    intro sent nonce attempts hf
    have hpos : ¬ attempts > 0 := by omega
    rw [loop_done _ _ _ _ _ _ _ _ _ _ hpos]
    exact ⟨rfl, rfl⟩
  | succ n ih =>
    intro sent nonce attempts hf
    by_cases hpos : attempts > 0
    · obtain ⟨stx, hstx⟩ := hs (NewTransaction nonce addr 0 GAS_LIMIT gp [])
      have h := ih (sent + 1) (wrapU64 (nonce + 1)) (attempts - 1) (by omega)
      rw [loop_succ _ _ _ _ _ _ _ _ _ _ hpos, hstx]
      refine ⟨h.1, ?_⟩
      simp only
      rw [List.getLast?_append, h.2]
      rfl
    · rw [loop_done _ _ _ _ _ _ _ _ _ _ hpos]
      exact ⟨rfl, rfl⟩

/-- With enough fuel and a signer that never fails, the loop builds one
transaction per attempt, with consecutive nonces modulo `2^64`. -/
theorem loop_built (w : World) (client key : Nat) (addr : Address) (gp iv : Int)
    (hs : SignsAll w key) :
    ∀ fuel sent nonce attempts, Int.toNat attempts ≤ fuel → nonce < 2 ^ 64 →
      builtTxs (loop w client key addr gp iv fuel sent nonce attempts).trace =
        (List.range (Int.toNat attempts)).map
          (fun k => NewTransaction (wrapU64 (nonce + k)) addr 0 GAS_LIMIT gp []) := by
  intro fuel
  induction fuel with
  | zero =>
    intro sent nonce attempts hf _
    have hpos : ¬ attempts > 0 := by omega
    have h0 : Int.toNat attempts = 0 := by omega
    rw [loop_done _ _ _ _ _ _ _ _ _ _ hpos, h0]
    rfl
  | succ n ih =>
    intro sent nonce attempts hf hlt
    by_cases hpos : attempts > 0
    · obtain ⟨stx, hstx⟩ := hs (NewTransaction nonce addr 0 GAS_LIMIT gp [])
      have h := ih (sent + 1) (wrapU64 (nonce + 1)) (attempts - 1) (by omega) (wrapU64_lt _)
      have hsucc : Int.toNat attempts = Int.toNat (attempts - 1) + 1 := by omega
      rw [loop_succ _ _ _ _ _ _ _ _ _ _ hpos, hstx]
      simp only [builtTxs_append, builtTxs_iteration, h]
      rw [hsucc, List.range_succ_eq_map, List.map_cons, List.map_map]
      simp only [Nat.add_zero, wrapU64_of_lt hlt, List.singleton_append]
      congr 1
      apply List.map_congr_left
      intro k _
      simp only [Function.comp, Nat.succ_eq_add_one, wrapU64_add_wrapU64]
    · have h0 : Int.toNat attempts = 0 := by omega
      rw [loop_done _ _ _ _ _ _ _ _ _ _ hpos, h0]
      rfl

/-- With enough fuel and a signer that never fails, the loop hands one
transaction per attempt to the signer and submits one per attempt. -/
theorem loop_counts (w : World) (client key : Nat) (addr : Address) (gp iv : Int)
    (hs : SignsAll w key) :
    ∀ fuel sent nonce attempts, Int.toNat attempts ≤ fuel →
      (signedTxs (loop w client key addr gp iv fuel sent nonce attempts).trace).length =
          Int.toNat attempts ∧
      (sentTxs (loop w client key addr gp iv fuel sent nonce attempts).trace).length =
          Int.toNat attempts := by
  intro fuel
  induction fuel with
  | zero =>
    intro sent nonce attempts hf
    have hpos : ¬ attempts > 0 := by omega
    have h0 : Int.toNat attempts = 0 := by omega
    rw [loop_done _ _ _ _ _ _ _ _ _ _ hpos, h0]
    exact ⟨rfl, rfl⟩
  | succ n ih =>
    intro sent nonce attempts hf
    by_cases hpos : attempts > 0
    · obtain ⟨stx, hstx⟩ := hs (NewTransaction nonce addr 0 GAS_LIMIT gp [])
      have h := ih (sent + 1) (wrapU64 (nonce + 1)) (attempts - 1) (by omega)
      have hsucc : Int.toNat attempts = Int.toNat (attempts - 1) + 1 := by omega
      rw [loop_succ _ _ _ _ _ _ _ _ _ _ hpos, hstx]
      simp only [signedTxs_append, signedTxs_iteration, sentTxs_append, sentTxs_iteration,
        List.singleton_append, List.length_cons, h.1, h.2, hsucc, and_self]
    · have h0 : Int.toNat attempts = 0 := by omega
      rw [loop_done _ _ _ _ _ _ _ _ _ _ hpos, h0]
      exact ⟨rfl, rfl⟩

/-- Whenever the send of the `k`-th submitted transaction of the loop returns
an error, that error is logged. -/
theorem loop_send_logged (w : World) (client key : Nat) (addr : Address) (gp iv : Int) :
    ∀ fuel sent nonce attempts k stx e,
      (sentTxs (loop w client key addr gp iv fuel sent nonce attempts).trace)[k]? = some stx →
      w.send (sent + k) client stx = some e →
      Event.log (Msg.failedSend e) ∈
        (loop w client key addr gp iv fuel sent nonce attempts).trace := by
  intro fuel
  induction fuel with
  | zero =>
    intro sent nonce attempts k stx e hk _
    by_cases hpos : attempts > 0
    · rw [loop_zero _ _ _ _ _ _ _ _ _ hpos] at hk; simp [sentTxs] at hk
    · rw [loop_done _ _ _ _ _ _ _ _ _ _ hpos] at hk; simp [sentTxs, Event.asSent] at hk
  | succ n ih =>
    intro sent nonce attempts k stx e hk hsend
    by_cases hpos : attempts > 0
    · rw [loop_succ _ _ _ _ _ _ _ _ _ _ hpos] at hk ⊢
      split at hk
      · simp [sentTxs, Event.asSent] at hk
      · rename_i stx0 hstx0
        simp only [hstx0]
        simp only [sentTxs_append, sentTxs_iteration, List.singleton_append] at hk
        cases k with
        | zero =>
          simp only [List.getElem?_cons_zero, Option.some.injEq] at hk
          subst hk
          simp only [Nat.add_zero] at hsend
          simp [iteration, resultLine, hsend]
        | succ j =>
          simp only [List.getElem?_cons_succ] at hk
          have h := ih (sent + 1) (wrapU64 (nonce + 1)) (attempts - 1) j stx e hk
            (by rw [← hsend]; congr 1; omega)
          exact List.mem_append_right _ h
    · rw [loop_done _ _ _ _ _ _ _ _ _ _ hpos] at hk; simp [sentTxs, Event.asSent] at hk

/-- When the loop is reached, a run is the setup events followed by the loop. -/
theorem main_of_reachesLoop (w : World) (f : Flags) (fuel client : Nat) (bytes : List Nat)
    (key : Nat) (balance : Int) (nonce : Nat)
    (hr : ReachesLoop w client bytes key balance nonce) :
    main w f fuel =
      ⟨setupTrace w bytes key balance nonce ++
        (loop w client key (w.hexToAddress (Getenv w "FRONTRUNNER_CONTRACT_ADDRESS"))
          (wrapI64 (f.gasPriceGwei * 1000000000)) f.interval fuel 0 nonce f.attempts).trace,
       (loop w client key (w.hexToAddress (Getenv w "FRONTRUNNER_CONTRACT_ADDRESS"))
          (wrapI64 (f.gasPriceGwei * 1000000000)) f.interval fuel 0 nonce f.attempts).exit⟩ := by
  obtain ⟨⟨⟨h1, h2, h3, h4⟩, h5⟩, h6, h7⟩ := hr
  unfold fromAddressOf at h5 h7
  simp [main, h1, h2, h3, h4, h5, h6, h7, setupTrace, fromAddressOf]

/-- When setup succeeds and the balance is below the threshold, a run is the
setup events up to the balance line followed by the warning, with status 0. -/
theorem main_of_lowBalance (w : World) (f : Flags) (fuel client : Nat) (bytes : List Nat)
    (key : Nat) (balance : Int) (hsetup : SetupOk w client bytes key balance)
    (hlow : balance < balanceThresholdWei) :
    main w f fuel =
      ⟨[Event.loadEnv "settings.env", Event.dial (Getenv w "RPC_URL"),
        Event.print Msg.connected, Event.hexDecode (Getenv w "PRIVATE_KEY"),
        Event.toECDSA bytes, Event.print (Msg.usingAccount (fromAddressOf w key)),
        Event.balanceAt (fromAddressOf w key), Event.print (Msg.accountBalance balance),
        Event.log Msg.balanceTooLow], some 0⟩ := by
  obtain ⟨⟨h1, h2, h3, h4⟩, h5⟩ := hsetup
  unfold fromAddressOf at h5
  simp [main, h1, h2, h3, h4, h5, hlow, fromAddressOf]

/-- Every run either stops before the loop, having built, signed and sent
nothing and queried the balance and the nonce at most once each, or reaches
the loop. -/
theorem main_cases (w : World) (f : Flags) (fuel : Nat) :
    (noTransactions (main w f fuel).trace ∧ balanceQueries (main w f fuel).trace ≤ 1 ∧
      nonceQueries (main w f fuel).trace ≤ 1) ∨
    ∃ client bytes key balance nonce, ReachesLoop w client bytes key balance nonce := by
  cases h1 : w.load "settings.env" with
  | some e =>
    left
    simp [main, h1, noTransactions, builtTxs, signedTxs, sentTxs, balanceQueries, nonceQueries,
      Event.asBuilt, Event.asSigned, Event.asSent, Event.isBalanceQuery, Event.isNonceQuery]
  | none =>
  cases h2 : w.dial (Getenv w "RPC_URL") with
  | error e =>
    left
    simp [main, h1, h2, noTransactions, builtTxs, signedTxs, sentTxs, balanceQueries,
      nonceQueries, Event.asBuilt, Event.asSigned, Event.asSent, Event.isBalanceQuery,
      Event.isNonceQuery]
  | ok client =>
  cases h3 : w.hexDecode (Getenv w "PRIVATE_KEY") with
  | error e =>
    left
    simp [main, h1, h2, h3, noTransactions, builtTxs, signedTxs, sentTxs, balanceQueries,
      nonceQueries, Event.asBuilt, Event.asSigned, Event.asSent, Event.isBalanceQuery,
      Event.isNonceQuery]
  | ok bytes =>
  cases h4 : w.toECDSA bytes with
  | error e =>
    left
    simp [main, h1, h2, h3, h4, noTransactions, builtTxs, signedTxs, sentTxs, balanceQueries,
      nonceQueries, Event.asBuilt, Event.asSigned, Event.asSent, Event.isBalanceQuery,
      Event.isNonceQuery]
  | ok key =>
  cases h5 : w.balanceAt client (w.pubkeyToAddress (w.publicOf key)) with
  | error e =>
    left
    simp [main, h1, h2, h3, h4, h5, noTransactions, builtTxs, signedTxs, sentTxs,
      balanceQueries, nonceQueries, Event.asBuilt, Event.asSigned, Event.asSent,
      Event.isBalanceQuery, Event.isNonceQuery]
  | ok balance =>
  by_cases h6 : balance < balanceThresholdWei
  · left
    simp [main, h1, h2, h3, h4, h5, h6, noTransactions, builtTxs, signedTxs, sentTxs,
      balanceQueries, nonceQueries, Event.asBuilt, Event.asSigned, Event.asSent,
      Event.isBalanceQuery, Event.isNonceQuery]
  · cases h7 : w.pendingNonceAt client (w.pubkeyToAddress (w.publicOf key)) with
    | error e =>
      left
      simp [main, h1, h2, h3, h4, h5, h6, h7, noTransactions, builtTxs, signedTxs, sentTxs,
        balanceQueries, nonceQueries, Event.asBuilt, Event.asSigned, Event.asSent,
        Event.isBalanceQuery, Event.isNonceQuery]
    | ok nonce =>
      right
      exact ⟨client, bytes, key, balance, nonce, ⟨⟨h1, h2, h3, h4⟩, h5⟩, h6, h7⟩

theorem builtTxs_setupTrace (w : World) (bytes : List Nat) (key : Nat) (balance : Int)
    (nonce : Nat) : builtTxs (setupTrace w bytes key balance nonce) = [] := rfl

theorem signedTxs_setupTrace (w : World) (bytes : List Nat) (key : Nat) (balance : Int)
    (nonce : Nat) : signedTxs (setupTrace w bytes key balance nonce) = [] := rfl

theorem sentTxs_setupTrace (w : World) (bytes : List Nat) (key : Nat) (balance : Int)
    (nonce : Nat) : sentTxs (setupTrace w bytes key balance nonce) = [] := rfl

/-- The sample world reaches the loop. -/
theorem sampleWorld_reachesLoop : ReachesLoop sampleWorld 1 [1] 1 10000000000000000 5 := by
  simp [ReachesLoop, SetupOk, KeyOk, sampleWorld, balanceThresholdWei_eq]

/-- The sample world signs everything. -/
theorem sampleWorld_signsAll : SignsAll sampleWorld 1 :=
  fun tx => ⟨⟨tx.nonce, tx.nonce + 1000⟩, rfl⟩

/-- When no transaction is built, the ordering of queries and builds holds. -/
theorem queriesPrecedeBuilds_of_builtTxs_nil :
    ∀ t : List Event, builtTxs t = [] → queriesPrecedeBuilds t = true
  | [], _ => rfl
  | e :: t, h => by
    unfold builtTxs at h
    rw [List.filterMap_cons] at h
    unfold queriesPrecedeBuilds
    cases he : Event.asBuilt e with
    | some tx => rw [he] at h; simp at h
    | none =>
      rw [he] at h
      simp only [Option.isSome_none, Bool.false_eq_true, if_false]
      exact queriesPrecedeBuilds_of_builtTxs_nil t h

/-- The loop signs every transaction it builds. -/
theorem loop_built_length_eq_signed (w : World) (client key : Nat) (addr : Address)
    (gp iv : Int) :
    ∀ fuel sent nonce attempts,
      (builtTxs (loop w client key addr gp iv fuel sent nonce attempts).trace).length =
      (signedTxs (loop w client key addr gp iv fuel sent nonce attempts).trace).length := by
  intro fuel
  induction fuel with
  | zero =>
    intro sent nonce attempts
    by_cases hpos : attempts > 0
    · rw [loop_zero _ _ _ _ _ _ _ _ _ hpos]; rfl
    · rw [loop_done _ _ _ _ _ _ _ _ _ _ hpos]; rfl
  | succ n ih =>
    intro sent nonce attempts
    by_cases hpos : attempts > 0
    · rw [loop_succ _ _ _ _ _ _ _ _ _ _ hpos]
      split
      · rfl
      · simp only [builtTxs_append, builtTxs_iteration, signedTxs_append, signedTxs_iteration,
          List.singleton_append, List.length_cons, ih]
    · rw [loop_done _ _ _ _ _ _ _ _ _ _ hpos]; rfl

/-- A built transaction whose signing fails ends the loop there, in whichever
iteration it occurs: the exit status is 1, the diagnostic is the last event,
no completion message is written, the transaction is the last one built and
it is not submitted. -/
theorem loop_sign_failure (w : World) (client key : Nat) (addr : Address) (gp iv : Int) :
    ∀ fuel sent nonce attempts,
      ∀ tx ∈ builtTxs (loop w client key addr gp iv fuel sent nonce attempts).trace,
      ∀ e, w.signTx tx 1 key = Except.error e →
        (loop w client key addr gp iv fuel sent nonce attempts).exit = some 1 ∧
        (loop w client key addr gp iv fuel sent nonce attempts).trace.getLast? =
          some (Event.fatal (Msg.failedSign e)) ∧
        Event.log Msg.allCompleted ∉
          (loop w client key addr gp iv fuel sent nonce attempts).trace ∧
        (builtTxs (loop w client key addr gp iv fuel sent nonce attempts).trace).getLast? =
          some tx ∧
        (sentTxs (loop w client key addr gp iv fuel sent nonce attempts).trace).length + 1 =
          (builtTxs (loop w client key addr gp iv fuel sent nonce attempts).trace).length := by
  intro fuel
  induction fuel with
  | zero =>
    intro sent nonce attempts tx htx
    by_cases hpos : attempts > 0
    · rw [loop_zero _ _ _ _ _ _ _ _ _ hpos] at htx; simp [builtTxs] at htx
    · rw [loop_done _ _ _ _ _ _ _ _ _ _ hpos] at htx; simp [builtTxs, Event.asBuilt] at htx
  | succ n ih =>
    intro sent nonce attempts tx htx e hsign
    by_cases hpos : attempts > 0
    · rw [loop_succ _ _ _ _ _ _ _ _ _ _ hpos] at htx ⊢
      cases hs0 : w.signTx (NewTransaction nonce addr 0 GAS_LIMIT gp []) 1 key with
      | error e0 =>
        simp only [hs0] at htx
        simp [builtTxs, Event.asBuilt] at htx
        subst htx
        rw [hs0] at hsign
        injection hsign with he
        subst he
        simp [builtTxs, sentTxs, Event.asBuilt, Event.asSent]
      | ok stx =>
        simp only [hs0] at htx
        simp only [builtTxs_append, builtTxs_iteration, List.singleton_append,
          List.mem_cons] at htx
        rcases htx with h0 | h1
        · subst h0
          rw [hs0] at hsign
          cases hsign
        · obtain ⟨hx, hl, hc, hb, hlen⟩ := ih (sent + 1) (wrapU64 (nonce + 1)) (attempts - 1)
            tx h1 e hsign
          refine ⟨hx, ?_, ?_, ?_, ?_⟩
          · show List.getLast? (_ ++ _) = _
            rw [List.getLast?_append, hl]
            rfl
          · intro hmem
            rcases List.mem_append.1 hmem with h | h
            · cases hsend : w.send sent client stx <;>
                simp [iteration, resultLine, hsend] at h
            · exact hc h
          · show List.getLast? (builtTxs (_ ++ _)) = _
            rw [builtTxs_append, List.getLast?_append, hb]
            rfl
          · show List.length (sentTxs (_ ++ _)) + 1 = List.length (builtTxs (_ ++ _))
            rw [sentTxs_append, builtTxs_append, sentTxs_iteration, builtTxs_iteration]
            simp only [List.length_append, List.length_singleton]
            omega
    · rw [loop_done _ _ _ _ _ _ _ _ _ _ hpos] at htx; simp [builtTxs, Event.asBuilt] at htx

/-- With enough fuel the loop runs through every attempt and ends with the
completion message and status 0, unless the signing of a built transaction
fails. -/
theorem loop_completes_or_sign_fails (w : World) (client key : Nat) (addr : Address)
    (gp iv : Int) :
    ∀ fuel sent nonce attempts, Int.toNat attempts ≤ fuel →
      ((loop w client key addr gp iv fuel sent nonce attempts).exit = some 0 ∧
        (loop w client key addr gp iv fuel sent nonce attempts).trace.getLast? =
          some (Event.log Msg.allCompleted) ∧
        (sentTxs (loop w client key addr gp iv fuel sent nonce attempts).trace).length =
          Int.toNat attempts) ∨
      ∃ tx ∈ builtTxs (loop w client key addr gp iv fuel sent nonce attempts).trace,
        ∃ e, w.signTx tx 1 key = Except.error e := by
  intro fuel
  induction fuel with
  | zero =>
    intro sent nonce attempts hf
    have hpos : ¬ attempts > 0 := by omega
    have h0 : Int.toNat attempts = 0 := by omega
    rw [loop_done _ _ _ _ _ _ _ _ _ _ hpos, h0]
    exact Or.inl ⟨rfl, rfl, rfl⟩
  | succ n ih =>
    intro sent nonce attempts hf
    by_cases hpos : attempts > 0
    · rw [loop_succ _ _ _ _ _ _ _ _ _ _ hpos]
      cases hs0 : w.signTx (NewTransaction nonce addr 0 GAS_LIMIT gp []) 1 key with
      | error e0 =>
        right
        exact ⟨NewTransaction nonce addr 0 GAS_LIMIT gp [], by simp [builtTxs, Event.asBuilt],
          e0, hs0⟩
      | ok stx =>
        have hsucc : Int.toNat attempts = Int.toNat (attempts - 1) + 1 := by omega
        rcases ih (sent + 1) (wrapU64 (nonce + 1)) (attempts - 1) (by omega) with
          ⟨hx, hl, hlen⟩ | ⟨tx, htx, e, he⟩
        · left
          refine ⟨hx, ?_, ?_⟩
          · show List.getLast? (_ ++ _) = _
            rw [List.getLast?_append, hl]
            rfl
          · show List.length (sentTxs (_ ++ _)) = _
            rw [sentTxs_append, sentTxs_iteration, List.length_append, List.length_singleton,
              hlen, hsucc]
            omega
        · right
          refine ⟨tx, ?_, e, he⟩
          show tx ∈ builtTxs (_ ++ _)
          rw [builtTxs_append]
          exact List.mem_append_right _ htx
    · have h0 : Int.toNat attempts = 0 := by omega
      rw [loop_done _ _ _ _ _ _ _ _ _ _ hpos, h0]
      exact Or.inl ⟨rfl, rfl, rfl⟩

/-! ## C1: the nonces used by the loop -/

/-- C1 (as amended): when the loop is reached with starting nonce `N`, signing
never fails and the fuel suffices, then whatever the send outcomes the nonces
of the transactions built are `(N + k) mod 2^64` for `k = 0, ..., A - 1` in
that order, where `A` is the attempts count (none when `A ≤ 0`); when
`N + A ≤ 2^64` they are exactly `N, N + 1, ..., N + A - 1`. -/
theorem nonces_consecutive_mod (w : World) (f : Flags) (fuel client : Nat) (bytes : List Nat)
    (key : Nat) (balance : Int) (N : Nat)
    (hr : ReachesLoop w client bytes key balance N) (hs : SignsAll w key)
    (hN : N < 2 ^ 64) (hf : Int.toNat f.attempts ≤ fuel) :
    (builtTxs (main w f fuel).trace).map Tx.nonce =
        (List.range (Int.toNat f.attempts)).map (fun k => (N + k) % 2 ^ 64) ∧
    (N + Int.toNat f.attempts ≤ 2 ^ 64 →
      (builtTxs (main w f fuel).trace).map Tx.nonce =
        (List.range (Int.toNat f.attempts)).map (fun k => N + k)) := by
  have hb : (builtTxs (main w f fuel).trace).map Tx.nonce =
      (List.range (Int.toNat f.attempts)).map (fun k => (N + k) % 2 ^ 64) := by
    rw [main_of_reachesLoop w f fuel client bytes key balance N hr]
    simp only [builtTxs_append, builtTxs_setupTrace, List.nil_append]
    rw [loop_built w client key _ _ _ hs fuel 0 N f.attempts hf hN, List.map_map]
    rfl
  refine ⟨hb, fun hle => ?_⟩
  rw [hb]
  apply List.map_congr_left
  intro k hk
  have hk' : k < Int.toNat f.attempts := List.mem_range.1 hk
  exact Nat.mod_eq_of_lt (by omega)

/-- Witness for C1: the sample world with three attempts uses nonces 5, 6, 7. -/
theorem nonces_consecutive_mod_witness :
    (builtTxs (main sampleWorld ⟨60, 3, 5⟩ 3).trace).map Tx.nonce = [5, 6, 7] :=
  (nonces_consecutive_mod sampleWorld ⟨60, 3, 5⟩ 3 1 [1] 1 10000000000000000 5
    sampleWorld_reachesLoop sampleWorld_signsAll (by norm_num) (by decide)).2 (by decide)

/-- Counterexample to C1 as stated: with starting nonce `2^64 - 1` and two
attempts, the loop is reached and signing succeeds, yet the second
transaction carries nonce `0`, not `2^64`. -/
theorem nonces_wrap_counterexample :
    ReachesLoop maxNonceWorld 1 [1] 1 10000000000000000 18446744073709551615 ∧
    SignsAll maxNonceWorld 1 ∧
    (builtTxs (main maxNonceWorld ⟨60, 2, 0⟩ 2).trace).map Tx.nonce =
      [18446744073709551615, 0] ∧
    (builtTxs (main maxNonceWorld ⟨60, 2, 0⟩ 2).trace).map Tx.nonce ≠
      (List.range 2).map (fun k => 18446744073709551615 + k) := by
  refine ⟨?_, fun tx => ⟨⟨tx.nonce, tx.nonce + 1000⟩, rfl⟩, ?_, ?_⟩
  · simp [ReachesLoop, SetupOk, KeyOk, maxNonceWorld, sampleWorld, balanceThresholdWei_eq]
  · simp [main, loop, maxNonceWorld, sampleWorld, Getenv, balanceThresholdWei_eq, builtTxs,
      Event.asBuilt, resultLine, NewTransaction, wrapU64]
  · simp [main, loop, maxNonceWorld, sampleWorld, Getenv, balanceThresholdWei_eq, builtTxs,
      Event.asBuilt, resultLine, NewTransaction, wrapU64, List.range_succ]

/-! ## C2: the balance gate -/

/-- C2: when setup succeeds and the balance is strictly below `10^15`, nothing
is built, signed or sent, the warning is the last event and the exit status is
0; when the balance equals `10^15` the run goes on to the nonce query. -/
theorem low_balance_sends_nothing (w : World) (f : Flags) (fuel client : Nat)
    (bytes : List Nat) (key : Nat) (balance : Int)
    (hsetup : SetupOk w client bytes key balance) :
    (balance < 1000000000000000 →
      noTransactions (main w f fuel).trace ∧
      (main w f fuel).trace.getLast? = some (Event.log Msg.balanceTooLow) ∧
      (main w f fuel).exit = some 0) ∧
    (balance = 1000000000000000 →
      Event.log Msg.balanceTooLow ∉ (main w f fuel).trace ∧
      Event.pendingNonceAt (fromAddressOf w key) ∈ (main w f fuel).trace) := by
  constructor
  · intro hlow
    rw [main_of_lowBalance w f fuel client bytes key balance hsetup
      (by rw [balanceThresholdWei_eq]; exact hlow)]
    exact ⟨⟨rfl, rfl, rfl⟩, rfl, rfl⟩
  · intro heq
    have h6 : ¬ balance < balanceThresholdWei := by
      rw [balanceThresholdWei_eq]; omega
    obtain ⟨⟨h1, h2, h3, h4⟩, h5⟩ := hsetup
    unfold fromAddressOf at h5
    cases h7 : w.pendingNonceAt client (w.pubkeyToAddress (w.publicOf key)) with
    | error e => simp [main, h1, h2, h3, h4, h5, h6, h7, fromAddressOf]
    | ok nonce =>
      rw [main_of_reachesLoop w f fuel client bytes key balance nonce
        ⟨⟨⟨h1, h2, h3, h4⟩, h5⟩, h6, h7⟩]
      simp [setupTrace, loop_no_warning]

/-- The low-balance world passes setup with balance `5 * 10^14`. -/
theorem lowBalanceWorld_setupOk : SetupOk lowBalanceWorld 1 [1] 1 500000000000000 := by
  simp [SetupOk, KeyOk, lowBalanceWorld, sampleWorld]

/-- The threshold world passes setup with balance `10^15`. -/
theorem thresholdWorld_setupOk : SetupOk thresholdWorld 1 [1] 1 1000000000000000 := by
  simp [SetupOk, KeyOk, thresholdWorld, sampleWorld]

/-- Witness for C2: a balance of 0.0005 stops the run with status 0 and
nothing sent; a balance of exactly 0.001 goes on to the nonce query. -/
theorem low_balance_sends_nothing_witness :
    (noTransactions (main lowBalanceWorld ⟨60, 3, 1⟩ 3).trace ∧
      (main lowBalanceWorld ⟨60, 3, 1⟩ 3).trace.getLast? = some (Event.log Msg.balanceTooLow) ∧
      (main lowBalanceWorld ⟨60, 3, 1⟩ 3).exit = some 0) ∧
    (Event.log Msg.balanceTooLow ∉ (main thresholdWorld ⟨60, 3, 1⟩ 3).trace ∧
      Event.pendingNonceAt (fromAddressOf thresholdWorld 1) ∈
        (main thresholdWorld ⟨60, 3, 1⟩ 3).trace) :=
  ⟨(low_balance_sends_nothing lowBalanceWorld ⟨60, 3, 1⟩ 3 1 [1] 1 500000000000000
      lowBalanceWorld_setupOk).1 (by decide),
   (low_balance_sends_nothing thresholdWorld ⟨60, 3, 1⟩ 3 1 [1] 1 1000000000000000
      thresholdWorld_setupOk).2 rfl⟩

/-! ## C3: the number of transactions signed and submitted -/

/-- C3 (as amended): when the loop is reached, signing never fails and the
fuel suffices, the number of transactions signed and the number submitted are
both `max(attempts, 0)`, whatever the send outcomes; for `attempts ≥ 0` that
is exactly `attempts`. -/
theorem attempts_many_submitted (w : World) (f : Flags) (fuel client : Nat) (bytes : List Nat)
    (key : Nat) (balance : Int) (N : Nat)
    (hr : ReachesLoop w client bytes key balance N) (hs : SignsAll w key)
    (hf : Int.toNat f.attempts ≤ fuel) :
    (signedTxs (main w f fuel).trace).length = Int.toNat f.attempts ∧
    (sentTxs (main w f fuel).trace).length = Int.toNat f.attempts ∧
    (0 ≤ f.attempts →
      ((signedTxs (main w f fuel).trace).length : Int) = f.attempts ∧
      ((sentTxs (main w f fuel).trace).length : Int) = f.attempts) := by
  have hc := loop_counts w client key
    (w.hexToAddress (Getenv w "FRONTRUNNER_CONTRACT_ADDRESS"))
    (wrapI64 (f.gasPriceGwei * 1000000000)) f.interval hs fuel 0 N f.attempts hf
  rw [main_of_reachesLoop w f fuel client bytes key balance N hr]
  simp only [signedTxs_append, signedTxs_setupTrace, sentTxs_append, sentTxs_setupTrace,
    List.nil_append]
  refine ⟨hc.1, hc.2, fun h0 => ?_⟩
  rw [hc.1, hc.2]
  exact ⟨Int.toNat_of_nonneg h0, Int.toNat_of_nonneg h0⟩

/-- Witness for C3: the sample world with three attempts signs and submits
three transactions. -/
theorem attempts_many_submitted_witness :
    (signedTxs (main sampleWorld ⟨60, 3, 5⟩ 3).trace).length = 3 ∧
    (sentTxs (main sampleWorld ⟨60, 3, 5⟩ 3).trace).length = 3 :=
  ⟨(attempts_many_submitted sampleWorld ⟨60, 3, 5⟩ 3 1 [1] 1 10000000000000000 5
      sampleWorld_reachesLoop sampleWorld_signsAll (by decide)).1,
   (attempts_many_submitted sampleWorld ⟨60, 3, 5⟩ 3 1 [1] 1 10000000000000000 5
      sampleWorld_reachesLoop sampleWorld_signsAll (by decide)).2.1⟩

/-- Counterexample to C3 as stated: with `--attempts=-1` the loop is reached
and signing succeeds, the run completes with status 0, and the number of
transactions submitted is 0, which is not `attempts`. -/
theorem negative_attempts_counterexample :
    ReachesLoop sampleWorld 1 [1] 1 10000000000000000 5 ∧ SignsAll sampleWorld 1 ∧
    (main sampleWorld ⟨60, -1, 5⟩ 0).exit = some 0 ∧
    (sentTxs (main sampleWorld ⟨60, -1, 5⟩ 0).trace).length = 0 ∧
    ((sentTxs (main sampleWorld ⟨60, -1, 5⟩ 0).trace).length : Int) ≠
      (Flags.mk 60 (-1) 5).attempts := by
  refine ⟨sampleWorld_reachesLoop, sampleWorld_signsAll, ?_, ?_, ?_⟩ <;>
    simp [main, loop, sampleWorld, Getenv, balanceThresholdWei_eq, sentTxs, Event.asSent]

/-! ## C4 and C8: the fields of every transaction -/

/-- Every transaction built by a run carries the recipient parsed from
`FRONTRUNNER_CONTRACT_ADDRESS`, value 0, no data, the fixed gas limit and the
gas price computed on line 75. -/
theorem main_built_fields (w : World) (f : Flags) (fuel : Nat) :
    ∀ tx ∈ builtTxs (main w f fuel).trace,
      tx.recipient = w.hexToAddress (Getenv w "FRONTRUNNER_CONTRACT_ADDRESS") ∧
      tx.value = 0 ∧ tx.data = [] ∧ tx.gas = GAS_LIMIT ∧
      tx.gasPrice = wrapI64 (f.gasPriceGwei * 1000000000) := by
  intro tx htx
  rcases main_cases w f fuel with h | ⟨client, bytes, key, balance, nonce, hr⟩
  · rw [h.1.1] at htx
    simp at htx
  · rw [main_of_reachesLoop w f fuel client bytes key balance nonce hr] at htx
    simp only [builtTxs_append, builtTxs_setupTrace, List.nil_append] at htx
    exact loop_built_fields w client key _ _ _ fuel 0 nonce f.attempts tx htx

/-- The sample world with one attempt builds the transaction with nonce 5. -/
theorem sampleWorld_built :
    (⟨5, 2748, 0, 56000, 60000000000, []⟩ : Tx) ∈
      builtTxs (main sampleWorld ⟨60, 1, 5⟩ 1).trace := by
  simp [main, loop, sampleWorld, Getenv, balanceThresholdWei_eq, builtTxs, Event.asBuilt,
    resultLine, NewTransaction, wrapI64, GAS_LIMIT]

/-- C4 (as amended): every transaction built by a run has gas limit 56000 and
gas price `g * 10^9` reduced to a signed 64-bit integer, where `g` is the
`--gas_price_gwei` flag; the gas price is exactly `g * 10^9` whenever that
product is an `int64`. -/
theorem gas_price_and_limit (w : World) (f : Flags) (fuel : Nat) (tx : Tx)
    (htx : tx ∈ builtTxs (main w f fuel).trace) :
    tx.gas = 56000 ∧ tx.gasPrice = wrapI64 (f.gasPriceGwei * 10 ^ 9) ∧
    (inInt64 (f.gasPriceGwei * 10 ^ 9) → tx.gasPrice = f.gasPriceGwei * 10 ^ 9) := by
  have h := main_built_fields w f fuel tx htx
  have h9 : (10 : Int) ^ 9 = 1000000000 := by norm_num
  rw [h9]
  refine ⟨h.2.2.2.1, h.2.2.2.2, fun hin => ?_⟩
  rw [h.2.2.2.2, wrapI64_of_inInt64 hin]

/-- Witness for C4: with the default 60 gwei the transaction built by the
sample world has gas price `60 * 10^9` and gas limit 56000. -/
theorem gas_price_and_limit_witness :
    (⟨5, 2748, 0, 56000, 60000000000, []⟩ : Tx) ∈
      builtTxs (main sampleWorld ⟨60, 1, 5⟩ 1).trace ∧
    (⟨5, 2748, 0, 56000, 60000000000, []⟩ : Tx).gasPrice = 60 * 10 ^ 9 :=
  ⟨sampleWorld_built,
   (gas_price_and_limit sampleWorld ⟨60, 1, 5⟩ 1 ⟨5, 2748, 0, 56000, 60000000000, []⟩
      sampleWorld_built).2.2 (by decide)⟩

/-- Counterexample to C4 as stated: with `--gas_price_gwei=9223372037`, a value
of `int`, the product overflows and the transaction built carries the gas
price `-9223372036709551616`, not `9223372037 * 10^9`. -/
theorem gas_price_overflow_counterexample :
    inInt64 9223372037 ∧
    (builtTxs (main sampleWorld ⟨9223372037, 1, 5⟩ 1).trace).map Tx.gasPrice =
      [-9223372036709551616] ∧
    (builtTxs (main sampleWorld ⟨9223372037, 1, 5⟩ 1).trace).map Tx.gasPrice ≠
      [9223372037 * 10 ^ 9] := by
  refine ⟨by decide, ?_, ?_⟩ <;>
    simp [main, loop, sampleWorld, Getenv, balanceThresholdWei_eq, builtTxs, Event.asBuilt,
      resultLine, NewTransaction, wrapI64]

/-- C8: every transaction built by a run has recipient the address parsed
from `FRONTRUNNER_CONTRACT_ADDRESS`, value 0 and empty data, whatever the
iteration, the nonce and the earlier send outcomes. -/
theorem recipient_value_data_fixed (w : World) (f : Flags) (fuel : Nat) (tx : Tx)
    (htx : tx ∈ builtTxs (main w f fuel).trace) :
    tx.recipient = w.hexToAddress (Getenv w "FRONTRUNNER_CONTRACT_ADDRESS") ∧
    tx.value = 0 ∧ tx.data = [] := by
  have h := main_built_fields w f fuel tx htx
  exact ⟨h.1, h.2.1, h.2.2.1⟩

/-- Witness for C8: the transaction built by the sample world goes to the
address parsed from the configured string. -/
theorem recipient_value_data_fixed_witness :
    (⟨5, 2748, 0, 56000, 60000000000, []⟩ : Tx).recipient =
      sampleWorld.hexToAddress (Getenv sampleWorld "FRONTRUNNER_CONTRACT_ADDRESS") ∧
    (⟨5, 2748, 0, 56000, 60000000000, []⟩ : Tx).value = 0 ∧
    (⟨5, 2748, 0, 56000, 60000000000, []⟩ : Tx).data = [] :=
  recipient_value_data_fixed sampleWorld ⟨60, 1, 5⟩ 1 ⟨5, 2748, 0, 56000, 60000000000, []⟩
    sampleWorld_built

/-! ## C5: absent environment variables -/

/-- C6: an error of the balance query, or of the pending-nonce query, ends the
run in `log.Fatalf` with status 1 and nothing built, signed or sent.  An error
of a send inside the loop does not end the run: with a signer that never
fails and enough fuel, the run submits every attempt and ends with status 0,
and each send error is logged; and in any iteration whose send fails, the
error is logged and the loop goes on from the next nonce and the next count. -/
theorem query_errors_fatal_send_errors_logged (w : World) (f : Flags) (fuel client : Nat)
    (bytes : List Nat) (key : Nat) :
    (∀ e, KeyOk w client bytes key →
      w.balanceAt client (fromAddressOf w key) = Except.error e →
      (main w f fuel).exit = some 1 ∧
      (main w f fuel).trace.getLast? = some (Event.fatal (Msg.failedBalance e)) ∧
      noTransactions (main w f fuel).trace) ∧
    (∀ balance e, SetupOk w client bytes key balance → ¬ balance < balanceThresholdWei →
      w.pendingNonceAt client (fromAddressOf w key) = Except.error e →
      (main w f fuel).exit = some 1 ∧
      (main w f fuel).trace.getLast? = some (Event.fatal (Msg.failedNonce e)) ∧
      noTransactions (main w f fuel).trace) ∧
    (∀ balance N, ReachesLoop w client bytes key balance N → SignsAll w key →
      Int.toNat f.attempts ≤ fuel →
      (main w f fuel).exit = some 0 ∧
      (sentTxs (main w f fuel).trace).length = Int.toNat f.attempts ∧
      ∀ k stx e, (sentTxs (main w f fuel).trace)[k]? = some stx →
        w.send k client stx = some e →
        Event.log (Msg.failedSend e) ∈ (main w f fuel).trace) ∧
    (∀ (addr : Address) (gp iv : Int) (n sent nonce : Nat) (attempts : Int) stx e,
      attempts > 0 →
      w.signTx (NewTransaction nonce addr 0 GAS_LIMIT gp []) 1 key = Except.ok stx →
      w.send sent client stx = some e →
      loop w client key addr gp iv (n + 1) sent nonce attempts =
        ⟨[Event.newTx (NewTransaction nonce addr 0 GAS_LIMIT gp []),
          Event.signTx (NewTransaction nonce addr 0 GAS_LIMIT gp []) 1,
          Event.sendTx stx, Event.log (Msg.failedSend e),
          Event.sleep (wrapI64 (iv * 1000000000))] ++
          (loop w client key addr gp iv n (sent + 1) (wrapU64 (nonce + 1))
            (attempts - 1)).trace,
         (loop w client key addr gp iv n (sent + 1) (wrapU64 (nonce + 1))
            (attempts - 1)).exit⟩) := by
  refine ⟨?_, ?_, ?_, ?_⟩
  rotate_left 3
  · intro addr gp iv n sent nonce attempts stx e hpos hsign hsend
    rw [loop_succ _ _ _ _ _ _ _ _ _ _ hpos, hsign]
    simp only [iteration, hsend, resultLine]
  · rintro e ⟨h1, h2, h3, h4⟩ h5
    unfold fromAddressOf at h5
    simp [main, h1, h2, h3, h4, h5, noTransactions, builtTxs, signedTxs, sentTxs,
      Event.asBuilt, Event.asSigned, Event.asSent]
  · rintro balance e ⟨⟨h1, h2, h3, h4⟩, h5⟩ h6 h7
    unfold fromAddressOf at h5 h7
    simp [main, h1, h2, h3, h4, h5, h6, h7, noTransactions, builtTxs, signedTxs, sentTxs,
      Event.asBuilt, Event.asSigned, Event.asSent]
  · intro balance N hr hs hf
    rw [main_of_reachesLoop w f fuel client bytes key balance N hr]
    simp only [sentTxs_append, sentTxs_setupTrace, List.nil_append]
    refine ⟨(loop_exit w client key _ _ _ hs fuel 0 N f.attempts hf).1,
      (loop_counts w client key _ _ _ hs fuel 0 N f.attempts hf).2, ?_⟩
    intro k stx e hk hsend
    apply List.mem_append_right
    exact loop_send_logged w client key _ _ _ fuel 0 N f.attempts k stx e hk
      (by rw [Nat.zero_add]; exact hsend)

/-- Witness for C6: a failing balance query and a failing nonce query are
fatal; a rejected first send is logged and the second attempt still runs. -/
theorem query_errors_fatal_send_errors_logged_witness :
    (main balanceErrWorld ⟨60, 2, 5⟩ 2).exit = some 1 ∧
    (main nonceErrWorld ⟨60, 2, 5⟩ 2).exit = some 1 ∧
    (main sendFailWorld ⟨60, 2, 5⟩ 2).exit = some 0 ∧
    (sentTxs (main sendFailWorld ⟨60, 2, 5⟩ 2).trace).length = 2 ∧
    Event.log (Msg.failedSend "rejected") ∈ (main sendFailWorld ⟨60, 2, 5⟩ 2).trace ∧
    (loop sendFailWorld 1 1 2748 60000000000 5 (1 + 1) 0 5 2).exit =
      (loop sendFailWorld 1 1 2748 60000000000 5 1 (0 + 1) (wrapU64 (5 + 1)) (2 - 1)).exit :=
  have hr : ReachesLoop sendFailWorld 1 [1] 1 10000000000000000 5 := by
    simp [ReachesLoop, SetupOk, KeyOk, sendFailWorld, sampleWorld, balanceThresholdWei_eq]
  have hs : SignsAll sendFailWorld 1 := fun tx => ⟨⟨tx.nonce, tx.nonce + 1000⟩, rfl⟩
  have h3 := (query_errors_fatal_send_errors_logged sendFailWorld ⟨60, 2, 5⟩ 2 1 [1] 1).2.2.1
    10000000000000000 5 hr hs (by decide)
  ⟨((query_errors_fatal_send_errors_logged balanceErrWorld ⟨60, 2, 5⟩ 2 1 [1] 1).1
      "balance unavailable" (by simp [KeyOk, balanceErrWorld, sampleWorld])
      (by simp [balanceErrWorld])).1,
   ((query_errors_fatal_send_errors_logged nonceErrWorld ⟨60, 2, 5⟩ 2 1 [1] 1).2.1
      10000000000000000 "nonce unavailable"
      (by simp [SetupOk, KeyOk, nonceErrWorld, sampleWorld])
      (by simp [balanceThresholdWei_eq]) (by simp [nonceErrWorld])).1,
   h3.1, h3.2.1,
   h3.2.2 0 ⟨5, 1005⟩ "rejected"
     (by simp [main, loop, sendFailWorld, sampleWorld, Getenv, balanceThresholdWei_eq,
        sentTxs, Event.asSent, resultLine, NewTransaction])
     (by simp [sendFailWorld]),
   (by rw [(query_errors_fatal_send_errors_logged sendFailWorld ⟨60, 2, 5⟩ 2 1 [1] 1).2.2.2
       2748 60000000000 5 1 0 5 2 ⟨5, 1005⟩ "rejected" (by decide) rfl
       (by simp [sendFailWorld])])⟩

/-! ## C7: the loop runs to exhaustion -/

/-- C7 (as amended): when the loop is reached, a failed send never aborts it:
if every signing succeeds and the fuel suffices, then for every sequence of
send outcomes all `max(attempts, 0)` attempts are built and submitted, the
completion message is the last event and the exit status is 0.  A signing
failure is the one early exit, in whichever iteration it occurs: if the
signing of any built transaction fails, the exit status is 1, the diagnostic
is the last event, no completion message is written, and the failing
transaction is the last one built and is not submitted; and with enough fuel
a run that does not complete all attempts with status 0 has a built
transaction whose signing failed. -/
theorem loop_aborts_only_on_sign_failure (w : World) (f : Flags) (fuel client : Nat)
    (bytes : List Nat) (key : Nat) (balance : Int) (N : Nat)
    (hr : ReachesLoop w client bytes key balance N) :
    (SignsAll w key → Int.toNat f.attempts ≤ fuel →
      (builtTxs (main w f fuel).trace).length = Int.toNat f.attempts ∧
      (sentTxs (main w f fuel).trace).length = Int.toNat f.attempts ∧
      (main w f fuel).trace.getLast? = some (Event.log Msg.allCompleted) ∧
      (main w f fuel).exit = some 0) ∧
    (∀ tx ∈ builtTxs (main w f fuel).trace, ∀ e, w.signTx tx 1 key = Except.error e →
      (main w f fuel).exit = some 1 ∧
      (main w f fuel).trace.getLast? = some (Event.fatal (Msg.failedSign e)) ∧
      Event.log Msg.allCompleted ∉ (main w f fuel).trace ∧
      (builtTxs (main w f fuel).trace).getLast? = some tx ∧
      (sentTxs (main w f fuel).trace).length + 1 = (builtTxs (main w f fuel).trace).length) ∧
    (Int.toNat f.attempts ≤ fuel →
      ((main w f fuel).exit = some 0 ∧
        (main w f fuel).trace.getLast? = some (Event.log Msg.allCompleted) ∧
        (sentTxs (main w f fuel).trace).length = Int.toNat f.attempts) ∨
      ∃ tx ∈ builtTxs (main w f fuel).trace, ∃ e, w.signTx tx 1 key = Except.error e) ∧
    (∀ (addr : Address) (gp iv : Int) (n sent nonce : Nat) (attempts : Int) e,
      attempts > 0 →
      w.signTx (NewTransaction nonce addr 0 GAS_LIMIT gp []) 1 key = Except.error e →
      loop w client key addr gp iv (n + 1) sent nonce attempts =
        ⟨[Event.newTx (NewTransaction nonce addr 0 GAS_LIMIT gp []),
          Event.signTx (NewTransaction nonce addr 0 GAS_LIMIT gp []) 1,
          Event.fatal (Msg.failedSign e)], some 1⟩) := by
  rw [main_of_reachesLoop w f fuel client bytes key balance N hr]
  simp only [builtTxs_append, builtTxs_setupTrace, sentTxs_append, sentTxs_setupTrace,
    List.nil_append]
  refine ⟨?_, ?_, ?_, ?_⟩
  · intro hs hf
    have he := loop_exit w client key
      (w.hexToAddress (Getenv w "FRONTRUNNER_CONTRACT_ADDRESS"))
      (wrapI64 (f.gasPriceGwei * 1000000000)) f.interval hs fuel 0 N f.attempts hf
    have hc := loop_counts w client key
      (w.hexToAddress (Getenv w "FRONTRUNNER_CONTRACT_ADDRESS"))
      (wrapI64 (f.gasPriceGwei * 1000000000)) f.interval hs fuel 0 N f.attempts hf
    refine ⟨?_, hc.2, ?_, he.1⟩
    · rw [loop_built_length_eq_signed, hc.1]
    · rw [List.getLast?_append, he.2]
      rfl
  · intro tx htx e hsign
    obtain ⟨hx, hl, hc, hb, hlen⟩ := loop_sign_failure w client key _ _ _ fuel 0 N f.attempts
      tx htx e hsign
    refine ⟨hx, ?_, ?_, hb, hlen⟩
    · rw [List.getLast?_append, hl]
      rfl
    · intro hmem
      rcases List.mem_append.1 hmem with h | h
      · simp [setupTrace] at h
      · exact hc h
  · intro hf
    rcases loop_completes_or_sign_fails w client key
      (w.hexToAddress (Getenv w "FRONTRUNNER_CONTRACT_ADDRESS"))
      (wrapI64 (f.gasPriceGwei * 1000000000)) f.interval fuel 0 N f.attempts hf with
      ⟨hx, hl, hlen⟩ | h
    · left
      refine ⟨hx, ?_, hlen⟩
      rw [List.getLast?_append, hl]
      rfl
    · exact Or.inr h
  · intro addr gp iv n sent nonce attempts e hpos hsign
    rw [loop_succ _ _ _ _ _ _ _ _ _ _ hpos, hsign]

/-- The world whose signer fails from the second iteration on reaches the loop. -/
theorem lateSignFailWorld_reachesLoop :
    ReachesLoop lateSignFailWorld 1 [1] 1 10000000000000000 5 := by
  simp [ReachesLoop, SetupOk, KeyOk, lateSignFailWorld, sampleWorld, balanceThresholdWei_eq]

/-- The world whose signer fails from the second iteration on builds the
transaction with nonce 6. -/
theorem lateSignFailWorld_built :
    (⟨6, 2748, 0, 56000, 60000000000, []⟩ : Tx) ∈
      builtTxs (main lateSignFailWorld ⟨60, 3, 5⟩ 3).trace := by
  simp [main, loop, lateSignFailWorld, sampleWorld, Getenv, balanceThresholdWei_eq, builtTxs,
    Event.asBuilt, resultLine, NewTransaction, wrapI64, wrapU64, GAS_LIMIT]

/-- Witness for C7: in the world whose first send is rejected, both attempts
are carried out and the run completes with status 0; in the world whose
signer fails in the second of three iterations, the run ends there with
status 1, one transaction submitted and no completion message. -/
theorem loop_aborts_only_on_sign_failure_witness :
    ((sentTxs (main sendFailWorld ⟨60, 2, 5⟩ 2).trace).length = 2 ∧
      (main sendFailWorld ⟨60, 2, 5⟩ 2).trace.getLast? = some (Event.log Msg.allCompleted) ∧
      (main sendFailWorld ⟨60, 2, 5⟩ 2).exit = some 0) ∧
    ((main lateSignFailWorld ⟨60, 3, 5⟩ 3).exit = some 1 ∧
      (main lateSignFailWorld ⟨60, 3, 5⟩ 3).trace.getLast? =
        some (Event.fatal (Msg.failedSign "signing failed")) ∧
      Event.log Msg.allCompleted ∉ (main lateSignFailWorld ⟨60, 3, 5⟩ 3).trace ∧
      (builtTxs (main lateSignFailWorld ⟨60, 3, 5⟩ 3).trace).getLast? =
        some ⟨6, 2748, 0, 56000, 60000000000, []⟩ ∧
      (sentTxs (main lateSignFailWorld ⟨60, 3, 5⟩ 3).trace).length + 1 =
        (builtTxs (main lateSignFailWorld ⟨60, 3, 5⟩ 3).trace).length) ∧
    (((main sendFailWorld ⟨60, 2, 5⟩ 2).exit = some 0 ∧
        (main sendFailWorld ⟨60, 2, 5⟩ 2).trace.getLast? = some (Event.log Msg.allCompleted) ∧
        (sentTxs (main sendFailWorld ⟨60, 2, 5⟩ 2).trace).length = Int.toNat 2) ∨
      ∃ tx ∈ builtTxs (main sendFailWorld ⟨60, 2, 5⟩ 2).trace,
        ∃ e, sendFailWorld.signTx tx 1 1 = Except.error e) ∧
    (loop lateSignFailWorld 1 1 2748 60000000000 5 (1 + 1) 1 6 2).exit = some 1 :=
  have hr : ReachesLoop sendFailWorld 1 [1] 1 10000000000000000 5 := by
    simp [ReachesLoop, SetupOk, KeyOk, sendFailWorld, sampleWorld, balanceThresholdWei_eq]
  ⟨((loop_aborts_only_on_sign_failure sendFailWorld ⟨60, 2, 5⟩ 2 1 [1] 1 10000000000000000 5
      hr).1 (fun tx => ⟨⟨tx.nonce, tx.nonce + 1000⟩, rfl⟩) (by decide)).2,
   (loop_aborts_only_on_sign_failure lateSignFailWorld ⟨60, 3, 5⟩ 3 1 [1] 1
      10000000000000000 5 lateSignFailWorld_reachesLoop).2.1
      ⟨6, 2748, 0, 56000, 60000000000, []⟩ lateSignFailWorld_built "signing failed"
      (by simp [lateSignFailWorld]),
   (loop_aborts_only_on_sign_failure sendFailWorld ⟨60, 2, 5⟩ 2 1 [1] 1 10000000000000000 5
      hr).2.2.1 (by decide),
   (by rw [(loop_aborts_only_on_sign_failure lateSignFailWorld ⟨60, 3, 5⟩ 3 1 [1] 1
      10000000000000000 5 lateSignFailWorld_reachesLoop).2.2.2
      2748 60000000000 5 1 1 6 2 "signing failed" (by decide)
      (by simp [lateSignFailWorld, NewTransaction])])⟩

/-- Counterexample to C7 as stated: with three attempts requested and a signer
that fails, the loop is entered and aborted in its first iteration: nothing is
submitted, no completion message is written and the exit status is 1. -/
theorem sign_failure_aborts_counterexample :
    ReachesLoop signFailWorld 1 [1] 1 10000000000000000 5 ∧
    (main signFailWorld ⟨60, 3, 5⟩ 3).trace.getLast? =
      some (Event.fatal (Msg.failedSign "signing failed")) ∧
    builtTxs (main signFailWorld ⟨60, 3, 5⟩ 3).trace =
      [⟨5, 2748, 0, 56000, 60000000000, []⟩] ∧
    sentTxs (main signFailWorld ⟨60, 3, 5⟩ 3).trace = [] ∧
    Event.log Msg.allCompleted ∉ (main signFailWorld ⟨60, 3, 5⟩ 3).trace ∧
    (main signFailWorld ⟨60, 3, 5⟩ 3).exit = some 1 := by
  refine ⟨?_, ?_, ?_, ?_, ?_, ?_⟩
  · simp [ReachesLoop, SetupOk, KeyOk, signFailWorld, sampleWorld, balanceThresholdWei_eq]
  all_goals
    simp [main, loop, signFailWorld, sampleWorld, Getenv, balanceThresholdWei_eq, builtTxs,
      sentTxs, Event.asBuilt, Event.asSent, NewTransaction, wrapI64, GAS_LIMIT]

/-! ## C9: a private key that is not hex -/

/-- C9: when the settings file loads, the dial succeeds and the private key
string is rejected by hex decoding, the run is exactly: load, dial, the
connection line, the decoding, the diagnostic; it ends with status 1.  The
dial comes before the decoding, and no balance query, nonce query, signing or
send takes place. -/
theorem bad_hex_key_fatal_after_dial (w : World) (f : Flags) (fuel client : Nat) (e : String)
    (hload : w.load "settings.env" = none)
    (hdial : w.dial (Getenv w "RPC_URL") = Except.ok client)
    (hhex : w.hexDecode (Getenv w "PRIVATE_KEY") = Except.error e) :
    main w f fuel =
      ⟨[Event.loadEnv "settings.env", Event.dial (Getenv w "RPC_URL"),
        Event.print Msg.connected, Event.hexDecode (Getenv w "PRIVATE_KEY"),
        Event.fatal (Msg.invalidKey e)], some 1⟩ ∧
    balanceQueries (main w f fuel).trace = 0 ∧ nonceQueries (main w f fuel).trace = 0 ∧
    noTransactions (main w f fuel).trace := by
  have h : main w f fuel =
      ⟨[Event.loadEnv "settings.env", Event.dial (Getenv w "RPC_URL"),
        Event.print Msg.connected, Event.hexDecode (Getenv w "PRIVATE_KEY"),
        Event.fatal (Msg.invalidKey e)], some 1⟩ := by
    simp [main, hload, hdial, hhex]
  rw [h]
  exact ⟨rfl, rfl, rfl, rfl, rfl, rfl⟩

/-- Witness for C9: the key `zz` is fatal after the dial. -/
theorem bad_hex_key_fatal_after_dial_witness :
    main badHexWorld ⟨60, 1, 5⟩ 1 =
      ⟨[Event.loadEnv "settings.env", Event.dial "http://localhost:8545",
        Event.print Msg.connected, Event.hexDecode "zz",
        Event.fatal (Msg.invalidKey "invalid byte")], some 1⟩ :=
  (bad_hex_key_fatal_after_dial badHexWorld ⟨60, 1, 5⟩ 1 1 "invalid byte"
    (by simp [badHexWorld, sampleWorld]) (by simp [badHexWorld, sampleWorld, Getenv])
    (by simp [badHexWorld, Getenv])).1

/-! ## C10: the balance and the nonce are queried once, before the loop -/

/-- C10: in every run the balance is queried at most once and the pending
nonce at most once, no query follows the first built transaction, and the loop
itself, from any state and whatever the send outcomes, issues no balance
query and no nonce query. -/
theorem queries_once_before_loop (w : World) (f : Flags) (fuel : Nat) :
    balanceQueries (main w f fuel).trace ≤ 1 ∧
    nonceQueries (main w f fuel).trace ≤ 1 ∧
    queriesPrecedeBuilds (main w f fuel).trace = true ∧
    ∀ (client key : Nat) (addr : Address) (gp iv : Int) (n sent nonce : Nat) (attempts : Int),
      balanceQueries (loop w client key addr gp iv n sent nonce attempts).trace = 0 ∧
      nonceQueries (loop w client key addr gp iv n sent nonce attempts).trace = 0 := by
  have hloop : ∀ (client key : Nat) (addr : Address) (gp iv : Int) (n sent nonce : Nat)
      (attempts : Int),
      balanceQueries (loop w client key addr gp iv n sent nonce attempts).trace = 0 ∧
      nonceQueries (loop w client key addr gp iv n sent nonce attempts).trace = 0 :=
    fun client key addr gp iv n sent nonce attempts =>
      ⟨balanceQueries_of_noQueries _ (loop_noQueries w client key addr gp iv n sent nonce attempts),
       nonceQueries_of_noQueries _ (loop_noQueries w client key addr gp iv n sent nonce attempts)⟩
  rcases main_cases w f fuel with h | ⟨client, bytes, key, balance, nonce, hr⟩
  · exact ⟨h.2.1, h.2.2, queriesPrecedeBuilds_of_builtTxs_nil _ h.1.1, hloop⟩
  · rw [main_of_reachesLoop w f fuel client bytes key balance nonce hr]
    have hq := loop_noQueries w client key
      (w.hexToAddress (Getenv w "FRONTRUNNER_CONTRACT_ADDRESS"))
      (wrapI64 (f.gasPriceGwei * 1000000000)) f.interval fuel 0 nonce f.attempts
    have hb := balanceQueries_of_noQueries _ hq
    have hn := nonceQueries_of_noQueries _ hq
    refine ⟨?_, ?_, ?_, hloop⟩
    · unfold balanceQueries at hb ⊢
      rw [List.countP_append, hb]
      simp [setupTrace, Event.isBalanceQuery]
    · unfold nonceQueries at hn ⊢
      rw [List.countP_append, hn]
      simp [setupTrace, Event.isNonceQuery]
    · simp only [setupTrace, List.cons_append, List.nil_append, queriesPrecedeBuilds,
        Event.asBuilt, Option.isSome_none, Bool.false_eq_true, if_false]
      exact queriesPrecedeBuilds_of_noQueries _ hq

end Repeater
